import Mathlib

/-!
# Verification of the genmap core

Shallow embedding of the two algorithmic components of the genmap
repository: the CPT color-palette parser (`src/colormaps.py`, function
`_load_cpt`) and the annotation-geometry computations (`src/core.py`,
methods `GenMap.add_colorbar_by_coords` and `GenMap.add_scalebar`).

Python floats are modelled as exact rationals (`ℚ`); where IEEE behaviour
genuinely differs (NaN from `0.0/0.0` on NumPy arrays) the divergence is
noted at the definition.  External collaborators (matplotlib transforms,
the geopy geodesic distance) are taken as function parameters.
-/

deriving instance DecidableEq for Except

namespace GenMap

/-! ### Python string primitives used by `_load_cpt` -/

/-- Python `str.split()` with no argument: split on runs of whitespace and
drop empty fields.  The accumulator holds the current field reversed. -/
def splitWsAux : List Char → List Char → List String
  | [], cur => if cur.isEmpty then [] else [String.mk cur.reverse]
  | c :: cs, cur =>
    if c.isWhitespace then
      if cur.isEmpty then splitWsAux cs []
      else String.mk cur.reverse :: splitWsAux cs []
    else splitWsAux cs (c :: cur)

/-- `line.split()` in `_load_cpt`. -/
def pySplit (s : String) : List String := splitWsAux s.data []

/-- `line.startswith("#")`. -/
def startsWithHash (s : String) : Bool :=
  match s.data with
  | '#' :: _ => true
  | _ => false

/-- Scan for the three-character run `HSV`. -/
def containsHSVAux : List Char → Bool
  | 'H' :: 'S' :: 'V' :: _ => true
  | _ :: rest => containsHSVAux rest
  | [] => false

/-- Python `"HSV" in line` (substring containment). -/
def containsHSV (s : String) : Bool := containsHSVAux s.data

/-! ### Python `float()` on one token -/

/-- Numeric value of a digit run, most significant digit first. -/
def digitsVal (cs : List Char) : ℕ :=
  cs.foldl (fun n c => 10 * n + (c.toNat - 48)) 0

/-- Split off a leading run of decimal digits. -/
def spanDigits : List Char → List Char × List Char
  | [] => ([], [])
  | c :: cs =>
    if c.isDigit then
      let p := spanDigits cs
      (c :: p.1, p.2)
    else ([], c :: cs)

/-- Optional leading sign; the flag records whether the value is negated. -/
def parseSign : List Char → Bool × List Char
  | '+' :: cs => (false, cs)
  | '-' :: cs => (true, cs)
  | cs => (false, cs)

/-- The exponent suffix of a float literal: empty, or `e`/`E` followed by an
optional sign and one or more digits consuming the rest of the token;
`none` when the suffix is malformed. -/
def parseExpSuffix : List Char → Option ℤ
  | [] => some 0
  | c :: cs =>
    if c = 'e' ∨ c = 'E' then
      let sg := parseSign cs
      let dg := spanDigits sg.2
      if dg.1.isEmpty ∨ ¬ dg.2.isEmpty then none
      else if sg.1 then some (-(digitsVal dg.1 : ℤ)) else some (digitsVal dg.1 : ℤ)
    else none

/-- Scale a mantissa by a power of ten. -/
def applyExp (m : ℚ) (e : ℤ) : ℚ :=
  if 0 ≤ e then m * 10 ^ e.toNat else m / 10 ^ (-e).toNat

/-- Python `float(token)` on a whitespace-free token, `none` exactly when
`float` raises `ValueError`: an optional sign, then digits with an optional
fractional part (at least one digit overall), then an optional exponent.
The `inf`/`nan` spellings (no counterpart in `ℚ`) and digit-group
underscores are not modelled; no palette token uses them. -/
def pyFloat (s : String) : Option ℚ :=
  let sg := parseSign s.data
  let ip := spanDigits sg.2
  let mr : Option ℚ × List Char :=
    match ip.2 with
    | '.' :: cs2 =>
      let fp := spanDigits cs2
      if ip.1.isEmpty ∧ fp.1.isEmpty then (none, fp.2)
      else (some ((digitsVal ip.1 : ℚ) + (digitsVal fp.1 : ℚ) / 10 ^ fp.1.length), fp.2)
    | _ => (if ip.1.isEmpty then none else some ((digitsVal ip.1 : ℚ)), ip.2)
  match mr.1, parseExpSuffix mr.2 with
  | some m, some e => some (applyExp (if sg.1 then -m else m) e)
  | _, _ => none

/-! ### The `_load_cpt` parser (`src/colormaps.py`) -/

/-- The exception kinds `_load_cpt` can raise past the `FileNotFoundError`
existence check (filesystem effects are outside the model). -/
inductive CptError where
  | indexError
  | valueError
deriving DecidableEq

/-- The loop state of `_load_cpt`: the color-model flag (`True` once a
comment containing `HSV` has been seen) and the four accumulator lists. -/
structure LoadState where
  hsv : Bool
  x : List ℚ
  r : List ℚ
  g : List ℚ
  b : List ℚ
deriving DecidableEq

/-- State before the `for line in lines` loop. -/
def initState : LoadState := ⟨false, [], [], [], []⟩

/-- `parts[0] in ("B", "F", "N")`. -/
def isSentinel (s : String) : Bool :=
  s == "B" || s == "F" || s == "N"

/-- `map(float, parts)` as consumed by tuple unpacking: all-or-nothing. -/
def mapFloat : List String → Option (List ℚ)
  | [] => some []
  | s :: ss =>
    match pyFloat s, mapFloat ss with
    | some v, some vs => some (v :: vs)
    | _, _ => none

/-- `x0, r0, g0, b0, x1, r1, g1, b1 = map(float, parts[:8])`.  Python raises
`ValueError` when a token among the first eight is non-numeric or when fewer
than eight values are produced by the slice; tokens beyond the eighth are
silently discarded by `parts[:8]`. -/
def parse8 (parts : List String) :
    Except CptError (ℚ × ℚ × ℚ × ℚ × ℚ × ℚ × ℚ × ℚ) :=
  match mapFloat (parts.take 8) with
  | some [x0, r0, g0, b0, x1, r1, g1, b1] => .ok (x0, r0, g0, b0, x1, r1, g1, b1)
  | _ => .error .valueError

/-- One iteration of the `for line in lines` loop of `_load_cpt`:
comment lines may flip the color model; an empty token list makes
`parts[0]` raise `IndexError`; sentinel rows are skipped; data rows append
both segment endpoints to every accumulator. -/
def processLine (st : LoadState) (line : String) : Except CptError LoadState :=
  if startsWithHash line then
    .ok { st with hsv := st.hsv || containsHSV line }
  else
    match pySplit line with
    | [] => .error .indexError
    | p0 :: rest =>
      if isSentinel p0 then .ok st
      else
        match parse8 (p0 :: rest) with
        | .error e => .error e
        | .ok (x0, r0, g0, b0, x1, r1, g1, b1) =>
          .ok { hsv := st.hsv
                x := st.x ++ [x0, x1]
                r := st.r ++ [r0, r1]
                g := st.g ++ [g0, g1]
                b := st.b ++ [b0, b1] }

/-- The whole `for line in lines` loop from a given state. -/
def collectFrom (st : LoadState) : List String → Except CptError LoadState
  | [] => .ok st
  | l :: ls =>
    match processLine st l with
    | .error e => .error e
    | .ok st2 => collectFrom st2 ls

/-- The whole `for line in lines` loop of `_load_cpt`. -/
def collect (lines : List String) : Except CptError LoadState :=
  collectFrom initState lines

/-- `r /= 255.0` under `if color_model == "RGB"`: HSV channels pass through
unchanged, RGB channels are divided by 255. -/
def scaleChannel (hsv : Bool) (c : List ℚ) : List ℚ :=
  if hsv then c else c.map (fun v => v / 255)

/-- `x_norm = (x - x.min()) / (x.max() - x.min())`.  NumPy raises
`ValueError` on an empty-array reduction (`x.min()` of no rows); on a
degenerate range (`max = min`) it raises nothing and fills the array with
NaN (`0.0/0.0`).  `ℚ` has no NaN — division by zero yields the junk value
`0` here — but the behaviour the theorems below rely on is shared: in the
degenerate case no error is signalled. -/
def normalizePositions (x : List ℚ) : Except CptError (List ℚ) :=
  match x with
  | [] => .error .valueError
  | h :: t =>
    let xmin := t.foldl min h
    let xmax := t.foldl max h
    .ok ((h :: t).map fun v => (v - xmin) / (xmax - xmin))

/-- One channel of the emitted dict:
`[(x_norm[i], c[i], c[i]) for i in range(len(x))]`.  The position and
channel accumulators always have equal length (they grow two at a time in
lockstep), under which `zipWith` coincides with the indexed comprehension. -/
def mkChannel (xn cs : List ℚ) : List (ℚ × ℚ × ℚ) :=
  List.zipWith (fun p c => (p, c, c)) xn cs

/-- The returned `color_dict`. -/
structure ColorDict where
  red : List (ℚ × ℚ × ℚ)
  green : List (ℚ × ℚ × ℚ)
  blue : List (ℚ × ℚ × ℚ)
deriving DecidableEq

/-- `_load_cpt`, with the palette file presented as its list of lines
(the result of `f.readlines()`). -/
def load_cpt (lines : List String) : Except CptError ColorDict :=
  match collect lines with
  | .error e => .error e
  | .ok st =>
    let r := scaleChannel st.hsv st.r
    let g := scaleChannel st.hsv st.g
    let b := scaleChannel st.hsv st.b
    match normalizePositions st.x with
    | .error e => .error e
    | .ok xn => .ok ⟨mkChannel xn r, mkChannel xn g, mkChannel xn b⟩

/-! ### Annotation geometry (`src/core.py`) -/

/-- The map extent fields `N, S, E, W` of a `GenMap` instance. -/
structure Extent where
  N : ℚ
  S : ℚ
  E : ℚ
  W : ℚ
deriving DecidableEq

/-- Python float division by `0.0` raises `ZeroDivisionError`. -/
inductive ScaleError where
  | zeroDivisionError
deriving DecidableEq

/-- The span computation of `GenMap.add_scalebar`.  The geodesic distance
`geopy.distance.distance(a, b).km` is an external collaborator, taken as a
parameter on (lat, lon) pairs.  Returns the plotted interval
`(lon_left, lon_right)`; `lat_pos` only positions the drawn artists. -/
def add_scalebar (geodesicKm : ℚ × ℚ → ℚ × ℚ → ℚ) (ext : Extent)
    (length_km : ℚ) (location : ℚ × ℚ) : Except ScaleError (ℚ × ℚ) :=
  let x_frac := location.1
  let lon_center := ext.W + x_frac * (ext.E - ext.W)
  let mid_lat := (ext.N + ext.S) / 2
  let km_per_degree := geodesicKm (mid_lat, ext.W) (mid_lat, ext.W - 1)
  if km_per_degree = 0 then .error .zeroDivisionError
  else
    let degree_length := length_km / km_per_degree
    .ok (lon_center - degree_length / 2, lon_center + degree_length / 2)

/-- The rect `[x0f, y0f, x1f - x0f, y1f - y0f]` handed to `fig.add_axes`. -/
structure FigureRect where
  x : ℚ
  y : ℚ
  w : ℚ
  h : ℚ
deriving DecidableEq

/-- The placement computation of `GenMap.add_colorbar_by_coords`: the two
transform stages `ax.transData.transform` (data → display) and
`fig.transFigure.inverted().transform` (display → figure fraction) are
external collaborators, taken as parameters. -/
def add_colorbar_by_coords (transData invTransFigure : ℚ × ℚ → ℚ × ℚ)
    (x0 y0 x1 y1 : ℚ) : FigureRect :=
  let p0 := transData (x0, y0)
  let p1 := transData (x1, y1)
  let q0 := invTransFigure p0
  let q1 := invTransFigure p1
  ⟨q0.1, q0.2, q1.1 - q0.1, q1.2 - q0.2⟩

/-! ### Supporting lemmas -/

/-- Splitting the loop of `_load_cpt` at a cleanly processed prefix. -/
theorem collectFrom_append_ok (st st2 : LoadState) (l1 l2 : List String)
    (h : collectFrom st l1 = .ok st2) :
    collectFrom st (l1 ++ l2) = collectFrom st2 l2 := by
  induction l1 generalizing st with
  | nil =>
    simp only [collectFrom] at h
    injection h with h
    subst h
    rfl
  | cons a as ih =>
    simp only [collectFrom, List.cons_append] at h ⊢
    cases hp : processLine st a with
    | error e => rw [hp] at h; cases h
    | ok stx => rw [hp] at h; exact ih stx h

/-- If the overall loop succeeds, so does every prefix. -/
theorem collectFrom_ok_split (st stf : LoadState) (l1 l2 : List String)
    (h : collectFrom st (l1 ++ l2) = .ok stf) :
    ∃ mid, collectFrom st l1 = .ok mid ∧ collectFrom mid l2 = .ok stf := by
  induction l1 generalizing st with
  | nil => exact ⟨st, rfl, h⟩
  | cons a as ih =>
    simp only [collectFrom, List.cons_append] at h ⊢
    cases hp : processLine st a with
    | error e => rw [hp] at h; cases h
    | ok stx => rw [hp] at h; exact ih stx h

/-- A loop failure is a parse failure. -/
theorem load_cpt_error_of_collect (lines : List String) (e : CptError)
    (h : collect lines = .error e) : load_cpt lines = .error e := by
  simp [load_cpt, h]

/-- `map(float, ...)` is length-preserving when it succeeds. -/
theorem mapFloat_length (ss : List String) (vs : List ℚ)
    (h : mapFloat ss = some vs) : vs.length = ss.length := by
  induction ss generalizing vs with
  | nil =>
    simp only [mapFloat, Option.some.injEq] at h
    subst h
    rfl
  | cons s ss ih =>
    simp only [mapFloat] at h
    cases hp : pyFloat s with
    | none => rw [hp] at h; cases h
    | some v =>
      rw [hp] at h
      cases hm : mapFloat ss with
      | none => rw [hm] at h; cases h
      | some vs2 =>
        rw [hm] at h
        simp only [Option.some.injEq] at h
        subst h
        simp [ih vs2 hm]

/-- When `map(float, ...)` succeeds, every token was numeric. -/
theorem mapFloat_mem_some (ss : List String) (vs : List ℚ)
    (h : mapFloat ss = some vs) (s : String) (hs : s ∈ ss) :
    pyFloat s ≠ none := by
  induction ss generalizing vs with
  | nil => cases hs
  | cons a as ih =>
    simp only [mapFloat] at h
    cases hp : pyFloat a with
    | none => rw [hp] at h; cases h
    | some v =>
      rw [hp] at h
      cases hm : mapFloat as with
      | none => rw [hm] at h; cases h
      | some vs2 =>
        rcases List.mem_cons.mp hs with hEq | hMem
        · subst hEq; simp [hp]
        · exact ih vs2 hm hMem

/-- Tuple unpacking fails when the token list is too short. -/
theorem parse8_error_short (parts : List String) (h : parts.length < 8) :
    parse8 parts = .error .valueError := by
  unfold parse8
  split
  · next x0 r0 g0 b0 x1 r1 g1 b1 heq =>
      have hlen := mapFloat_length _ _ heq
      simp only [List.length_take, List.length_cons, List.length_nil] at hlen
      omega
  · rfl

/-- Tuple unpacking fails when a token among the first eight is
non-numeric. -/
theorem parse8_error_bad_token (parts : List String) (s : String)
    (hs : s ∈ parts.take 8) (hbad : pyFloat s = none) :
    parse8 parts = .error .valueError := by
  unfold parse8
  split
  · next x0 r0 g0 b0 x1 r1 g1 b1 heq =>
      exact absurd hbad (mapFloat_mem_some _ _ heq s hs)
  · rfl

/-- A non-comment, non-sentinel line whose tuple unpacking fails aborts
the loop with `ValueError`. -/
theorem processLine_error_of_parse8 (st : LoadState) (line p0 : String)
    (rest : List String) (hc : startsWithHash line = false)
    (hsplit : pySplit line = p0 :: rest) (hsent : isSentinel p0 = false)
    (hbad : parse8 (p0 :: rest) = .error .valueError) :
    processLine st line = .error .valueError := by
  simp [processLine, hc, hsplit, hsent, hbad]

/-- A line with no tokens makes `parts[0]` raise `IndexError`. -/
theorem processLine_blank_index_error (st : LoadState) (line : String)
    (hc : startsWithHash line = false) (hsplit : pySplit line = []) :
    processLine st line = .error .indexError := by
  simp [processLine, hc, hsplit]

/-- The color-model flag is never reset by later lines. -/
theorem processLine_hsv_mono (st st2 : LoadState) (line : String)
    (h : processLine st line = .ok st2) (hh : st.hsv = true) :
    st2.hsv = true := by
  unfold processLine at h
  split at h
  · injection h with h
    subst h
    simp [hh]
  · split at h
    · cases h
    · split at h
      · injection h with h
        subst h
        exact hh
      · split at h
        · cases h
        · injection h with h
          subst h
          exact hh

/-- The color-model flag stays set across the rest of the loop. -/
theorem collectFrom_hsv_mono (st st2 : LoadState) (ls : List String)
    (h : collectFrom st ls = .ok st2) (hh : st.hsv = true) :
    st2.hsv = true := by
  induction ls generalizing st with
  | nil =>
    simp only [collectFrom] at h
    injection h with h
    subst h
    exact hh
  | cons a as ih =>
    simp only [collectFrom] at h
    cases hp : processLine st a with
    | error e => rw [hp] at h; cases h
    | ok stx => rw [hp] at h; exact ih stx h (processLine_hsv_mono st stx a hp hh)

/-- A comment line containing `HSV` sets the color-model flag. -/
theorem processLine_comment_sets_hsv (st : LoadState) (line : String)
    (hc : startsWithHash line = true) (hh : containsHSV line = true) :
    processLine st line = .ok { st with hsv := true } := by
  simp [processLine, hc, hh]

/-- The four accumulator lists of `_load_cpt` have equal lengths. -/
def balanced (st : LoadState) : Prop :=
  st.r.length = st.x.length ∧ st.g.length = st.x.length ∧
    st.b.length = st.x.length

/-- Every loop iteration keeps the accumulators in lockstep. -/
theorem processLine_balanced (st st2 : LoadState) (line : String)
    (h : processLine st line = .ok st2) (hb : balanced st) : balanced st2 := by
  unfold processLine at h
  split at h
  · injection h with h
    subst h
    exact hb
  · split at h
    · cases h
    · split at h
      · injection h with h
        subst h
        exact hb
      · split at h
        · cases h
        · injection h with h
          subst h
          obtain ⟨h1, h2, h3⟩ := hb
          refine ⟨?_, ?_, ?_⟩ <;>
            simp only [List.length_append, List.length_cons, List.length_nil,
              h1, h2, h3]

/-- The whole loop keeps the accumulators in lockstep. -/
theorem collectFrom_balanced (st st2 : LoadState) (ls : List String)
    (h : collectFrom st ls = .ok st2) (hb : balanced st) : balanced st2 := by
  induction ls generalizing st with
  | nil =>
    simp only [collectFrom] at h
    injection h with h
    subst h
    exact hb
  | cons a as ih =>
    simp only [collectFrom] at h
    cases hp : processLine st a with
    | error e => rw [hp] at h; cases h
    | ok stx => rw [hp] at h; exact ih stx h (processLine_balanced st stx a hp hb)

/-- A successful parse leaves the accumulators in lockstep. -/
theorem collect_balanced (lines : List String) (st : LoadState)
    (h : collect lines = .ok st) : balanced st :=
  collectFrom_balanced initState st lines h ⟨rfl, rfl, rfl⟩

/-- Channel scaling preserves length. -/
theorem scaleChannel_length (hsv : Bool) (c : List ℚ) :
    (scaleChannel hsv c).length = c.length := by
  cases hsv <;> simp [scaleChannel]

/-- `np.min` of a list whose head is a lower bound. -/
theorem foldl_min_eq_head (h : ℚ) (t : List ℚ) (hall : ∀ a ∈ t, h ≤ a) :
    t.foldl min h = h := by
  induction t generalizing h with
  | nil => rfl
  | cons a as ih =>
    simp only [List.foldl]
    rw [min_eq_left (hall a (List.mem_cons_self a as))]
    exact ih h fun b hb => hall b (List.mem_cons_of_mem a hb)

/-- On a non-decreasing list `np.max` is the last element. -/
theorem getLast?_eq_foldl_max (h : ℚ) (t : List ℚ)
    (hp : List.Pairwise (· ≤ ·) (h :: t)) :
    (h :: t).getLast? = some (t.foldl max h) := by
  induction t generalizing h with
  | nil => rfl
  | cons a as ih =>
    obtain ⟨hha, hp2⟩ := List.pairwise_cons.mp hp
    rw [List.getLast?_cons_cons, ih a hp2]
    simp only [List.foldl]
    rw [max_eq_right (hha a (List.mem_cons_self a as))]

/-- `getLast?` commutes with `map` on a nonempty list. -/
theorem getLast?_map_cons (f : ℚ → ℚ) (h : ℚ) (t : List ℚ) :
    ((h :: t).map f).getLast? = ((h :: t).getLast?).map f := by
  induction t generalizing h with
  | nil => rfl
  | cons a as ih =>
    simp only [List.map, List.getLast?_cons_cons]
    exact ih a

/-- The emitted positions of a channel are exactly `x_norm` (the two lists
zipped have equal length). -/
theorem mkChannel_map_fst (xn cs : List ℚ) (h : cs.length = xn.length) :
    (mkChannel xn cs).map Prod.fst = xn := by
  induction xn generalizing cs with
  | nil => rfl
  | cons p ps ih =>
    cases cs with
    | nil => simp at h
    | cons c cs2 =>
      simp only [List.length_cons, Nat.succ.injEq] at h
      simp only [mkChannel, List.zipWith, List.map]
      exact congrArg (List.cons p) (ih cs2 h)

/-- Every entry of an emitted channel carries one channel value twice. -/
theorem mem_mkChannel (xn cs : List ℚ) (p : ℚ × ℚ × ℚ)
    (hp : p ∈ mkChannel xn cs) : ∃ c ∈ cs, p.2.1 = c ∧ p.2.2 = c := by
  induction xn generalizing cs with
  | nil => simp [mkChannel] at hp
  | cons a as ih =>
    cases cs with
    | nil => simp [mkChannel] at hp
    | cons c cs2 =>
      simp only [mkChannel, List.zipWith] at hp
      rcases List.mem_cons.mp hp with hEq | hMem
      · subst hEq
        exact ⟨c, List.mem_cons_self c cs2, rfl, rfl⟩
      · obtain ⟨c2, hc2, h1, h2⟩ := ih cs2 hMem
        exact ⟨c2, List.mem_cons_of_mem c hc2, h1, h2⟩

/-- `normalizePositions` on a nonempty list, unfolded. -/
theorem normalizePositions_cons (h : ℚ) (t : List ℚ) :
    normalizePositions (h :: t) =
      .ok ((h :: t).map fun v =>
        (v - t.foldl min h) / (t.foldl max h - t.foldl min h)) := rfl

/-- Shape of a successful parse: the dict is the three zipped channels of
the scaled accumulators against the normalized positions. -/
theorem load_cpt_ok_elim (lines : List String) (st : LoadState) (d : ColorDict)
    (hcol : collect lines = .ok st) (hload : load_cpt lines = .ok d) :
    ∃ xn, normalizePositions st.x = .ok xn ∧
      d = ⟨mkChannel xn (scaleChannel st.hsv st.r),
           mkChannel xn (scaleChannel st.hsv st.g),
           mkChannel xn (scaleChannel st.hsv st.b)⟩ := by
  simp only [load_cpt, hcol] at hload
  cases hn : normalizePositions st.x with
  | error e => rw [hn] at hload; cases hload
  | ok xn =>
    rw [hn] at hload
    simp only [Except.ok.injEq] at hload
    exact ⟨xn, rfl, hload.symm⟩

/-! ### C1 -/

/-- **C1**: parsing the two-row RGB palette file with rows
`0 0 0 0 50 255 255 255` and `50 255 255 255 100 0 0 0` yields normalized
positions `[0, 1/2, 1/2, 1]` and, on each of the red, green and blue
channels, the value sequence `[0, 1, 1, 0]`, each emitted entry being the
triplet `(normalized_position, value, value)`. -/
theorem c1_two_segment_round_trip :
    load_cpt ["0 0 0 0 50 255 255 255", "50 255 255 255 100 0 0 0"] =
      .ok ⟨[(0, 0, 0), (1/2, 1, 1), (1/2, 1, 1), (1, 0, 0)],
           [(0, 0, 0), (1/2, 1, 1), (1/2, 1, 1), (1, 0, 0)],
           [(0, 0, 0), (1/2, 1, 1), (1/2, 1, 1), (1, 0, 0)]⟩ := by
  with_unfolding_all decide

/-! ### C3 -/

/-- **C3**: contrary to the claim, a degenerate table whose only row has
`pos0 == pos1` is *not* rejected: `_load_cpt` returns normally.  (In the
source the normalized positions are NaN from `0.0/0.0` on the NumPy array —
a `RuntimeWarning`, not an exception; in this `ℚ` model the same division
by zero yields `0`.  Either way, no `ParseError`-kind failure occurs and
the degenerate range is not guarded.) -/
theorem c3_degenerate_row_not_rejected :
    load_cpt ["50 0 0 0 50 255 255 255"] =
      .ok ⟨[(0, 0, 0), (0, 1, 1)],
           [(0, 0, 0), (0, 1, 1)],
           [(0, 0, 0), (0, 1, 1)]⟩ := by
  with_unfolding_all decide

/-! ### C4 -/

/-- **C4**: for positive length, a proper extent and any center fraction,
whenever the geodesic km-per-degree at the extent's mid-latitude is nonzero
(the zero case raises, see the companion results), `add_scalebar` returns
`lon_center ∓ degree_length / 2` with
`lon_center = W + x_frac * (E - W)` and
`degree_length = length_km / km_per_degree`, `km_per_degree` being the
geodesic distance between `(mid_lat, W)` and `(mid_lat, W - 1)`; the span
is symmetric around `lon_center`. -/
theorem c4_scalebar_span (geod : ℚ × ℚ → ℚ × ℚ → ℚ) (ext : Extent)
    (length_km x_frac y_frac : ℚ) (hlen : 0 < length_km) (hns : ext.S < ext.N)
    (hkm : geod ((ext.N + ext.S) / 2, ext.W) ((ext.N + ext.S) / 2, ext.W - 1) ≠ 0) :
    add_scalebar geod ext length_km (x_frac, y_frac) =
      .ok (ext.W + x_frac * (ext.E - ext.W) -
             length_km / geod ((ext.N + ext.S) / 2, ext.W) ((ext.N + ext.S) / 2, ext.W - 1) / 2,
           ext.W + x_frac * (ext.E - ext.W) +
             length_km / geod ((ext.N + ext.S) / 2, ext.W) ((ext.N + ext.S) / 2, ext.W - 1) / 2) ∧
    (ext.W + x_frac * (ext.E - ext.W)) -
        (ext.W + x_frac * (ext.E - ext.W) -
          length_km / geod ((ext.N + ext.S) / 2, ext.W) ((ext.N + ext.S) / 2, ext.W - 1) / 2) =
      (ext.W + x_frac * (ext.E - ext.W) +
          length_km / geod ((ext.N + ext.S) / 2, ext.W) ((ext.N + ext.S) / 2, ext.W - 1) / 2) -
        (ext.W + x_frac * (ext.E - ext.W)) := by
  constructor
  · simp only [add_scalebar, if_neg hkm]
  · ring

/-- Closed instance of the C4 theorem: the spec's §8 example, a constant
geodesic collaborator returning 111 km/degree on a 0–10°N, 0–10°E extent
with the bar centered at `(0.5, 0.5)`. -/
theorem c4_scalebar_span_witness :
    (0 : ℚ) < 111 ∧ (0 : ℚ) < 10 ∧
    (add_scalebar (fun _ _ => 111) ⟨10, 0, 10, 0⟩ 111 (1/2, 1/2) =
        .ok (0 + 1/2 * (10 - 0) - 111 / 111 / 2, 0 + 1/2 * (10 - 0) + 111 / 111 / 2) ∧
      (0 + 1/2 * (10 - 0) : ℚ) - (0 + 1/2 * (10 - 0) - 111 / 111 / 2) =
        (0 + 1/2 * (10 - 0) + 111 / 111 / 2) - (0 + 1/2 * (10 - 0))) :=
  ⟨by norm_num, by norm_num,
   c4_scalebar_span (fun _ _ => 111) ⟨10, 0, 10, 0⟩ 111 (1/2) (1/2)
     (by norm_num) (by norm_num) (by norm_num)⟩

/-! ### C5 -/

/-- **C5**: when the geodesic km-per-degree value is 0 (as at mid-latitude
±90°, where both probe points coincide at a pole), `add_scalebar` fails
with Python's `ZeroDivisionError` — a `DomainError`-kind condition — rather
than returning infinity or NaN. -/
theorem c5_scalebar_zero_km_fails (geod : ℚ × ℚ → ℚ × ℚ → ℚ) (ext : Extent)
    (length_km x_frac y_frac : ℚ)
    (hkm : geod ((ext.N + ext.S) / 2, ext.W) ((ext.N + ext.S) / 2, ext.W - 1) = 0) :
    add_scalebar geod ext length_km (x_frac, y_frac) = .error .zeroDivisionError := by
  simp only [add_scalebar, if_pos hkm]

/-- Closed instance of the C5 theorem: a polar extent (south boundary 90°)
whose geodesic collaborator degenerates to 0 km/degree. -/
theorem c5_scalebar_zero_km_fails_witness :
    (fun (_ _ : ℚ × ℚ) => (0 : ℚ)) ((90 + 90) / 2, 0) ((90 + 90) / 2, 0 - 1) = 0 ∧
    add_scalebar (fun _ _ => 0) ⟨90, 90, 10, 0⟩ 100 (1/2, 1/20) =
      .error .zeroDivisionError :=
  ⟨rfl, c5_scalebar_zero_km_fails (fun _ _ => 0) ⟨90, 90, 10, 0⟩ 100 (1/2) (1/20) rfl⟩

/-! ### C9 -/

/-- **C9**: the colorbar rect is width `x1f - x0f` and height `y1f - y0f`
of the transformed corners (no reordering or validation), and calling the
computation with the two data corners swapped flips the sign of both width
and height; the result is a pure function of the corner coordinates and
the two transform stages. -/
theorem c9_colorbar_swap_flips_signs (t1 t2 : ℚ × ℚ → ℚ × ℚ) (x0 y0 x1 y1 : ℚ) :
    (add_colorbar_by_coords t1 t2 x0 y0 x1 y1).w
        = (t2 (t1 (x1, y1))).1 - (t2 (t1 (x0, y0))).1 ∧
    (add_colorbar_by_coords t1 t2 x0 y0 x1 y1).h
        = (t2 (t1 (x1, y1))).2 - (t2 (t1 (x0, y0))).2 ∧
    (add_colorbar_by_coords t1 t2 x1 y1 x0 y0).w
        = -(add_colorbar_by_coords t1 t2 x0 y0 x1 y1).w ∧
    (add_colorbar_by_coords t1 t2 x1 y1 x0 y0).h
        = -(add_colorbar_by_coords t1 t2 x0 y0 x1 y1).h := by
  refine ⟨rfl, rfl, ?_, ?_⟩ <;> simp [add_colorbar_by_coords, neg_sub]

/-! ### C2 (counterexample and amended theorem) -/

/-- **C2 counterexample**: a palette file whose rows appear in decreasing
position order is accepted by the parser, yet its output position sequence
`[1/2, 1, 0, 1/2]` is not non-decreasing and does not start at 0 — the
parser never sorts. -/
theorem c2_cex_out_of_order_file :
    load_cpt ["50 255 255 255 100 0 0 0", "0 0 0 0 50 255 255 255"] =
      .ok ⟨[(1/2, 1, 1), (1, 0, 0), (0, 0, 0), (1/2, 1, 1)],
           [(1/2, 1, 1), (1, 0, 0), (0, 0, 0), (1/2, 1, 1)],
           [(1/2, 1, 1), (1, 0, 0), (0, 0, 0), (1/2, 1, 1)]⟩ ∧
    ¬ List.Pairwise (· ≤ ·) [(1/2 : ℚ), 1, 0, 1/2] ∧
    ((1/2 : ℚ) ≠ 0) := by
  refine ⟨by with_unfolding_all decide, ?_, by with_unfolding_all decide⟩
  intro hp
  have := (List.pairwise_cons.mp ((List.pairwise_cons.mp hp).2)).1 0 (by simp)
  exact absurd this (by with_unfolding_all decide)

/-! ### C6 (counterexample) -/

/-- **C6 counterexample**: a data line with *nine* numeric fields does not
make the parse fail — `parts[:8]` silently drops the ninth token and the
file parses successfully. -/
theorem c6_cex_nine_field_row_accepted :
    load_cpt ["0 0 0 0 50 255 255 255 99"] =
      .ok ⟨[(0, 0, 0), (1, 1, 1)],
           [(0, 0, 0), (1, 1, 1)],
           [(0, 0, 0), (1, 1, 1)]⟩ := by
  with_unfolding_all decide

/-! ### C7 (counterexample) -/

/-- **C7 counterexample**: the parser accepts a file whose red channel
value is 300; after division by 255 the emitted value `20/17` exceeds 1,
so channel values of accepted RGB files do not always lie in `[0, 1]`. -/
theorem c7_cex_out_of_range_channel :
    load_cpt ["0 300 0 0 100 300 0 0"] =
      .ok ⟨[(0, 20/17, 20/17), (1, 20/17, 20/17)],
           [(0, 0, 0), (1, 0, 0)],
           [(0, 0, 0), (1, 0, 0)]⟩ ∧
    ¬ ((20 : ℚ) / 17 ≤ 1) := by
  exact ⟨by with_unfolding_all decide, by with_unfolding_all decide⟩

/-! ### C8 (counterexample) -/

/-- **C8 counterexample**: with a data row *before* the `# HSV` comment,
the point parsed before the directive is *not* divided by 255 (its red
value stays 255, where the claim demands `255 / 255 = 1`): the final color
model governs the whole file, not only subsequent points. -/
theorem c8_cex_directive_applies_retroactively :
    load_cpt ["0 255 0 0 100 255 0 0", "# HSV"] =
      .ok ⟨[(0, 255, 255), (1, 255, 255)],
           [(0, 0, 0), (1, 0, 0)],
           [(0, 0, 0), (1, 0, 0)]⟩ ∧
    (255 : ℚ) ≠ 255 / 255 := by
  exact ⟨by with_unfolding_all decide, by with_unfolding_all decide⟩

/-! ### C10 (counterexample) -/

/-- **C10 counterexample**: a file that contains a blank line does not
always fail with the indexing error — here the malformed first line `abc`
raises `ValueError` before the blank line is ever reached. -/
theorem c10_cex_earlier_value_error_preempts :
    load_cpt ["abc", ""] = .error .valueError ∧
    CptError.valueError ≠ CptError.indexError := by
  exact ⟨by with_unfolding_all decide, by decide⟩

/-! ### C6 (amended theorem) -/

/-- **C6 (amended)**: a palette file line that is not a comment, not a
sentinel row, and either has fewer than eight fields or a non-numeric
token among its *first eight* fields, makes the parse fail with a
`ParseError`-kind (`ValueError`) error, provided the lines before it were
processed without error.  (Fields beyond the eighth are ignored, not
rejected — see the counterexample.) -/
theorem c6_short_or_non_numeric_row_fails (pre : List String) (line : String)
    (post : List String) (st : LoadState) (p0 : String) (rest : List String)
    (hpre : collect pre = .ok st)
    (hc : startsWithHash line = false)
    (hsplit : pySplit line = p0 :: rest)
    (hsent : isSentinel p0 = false)
    (hbad : (p0 :: rest).length < 8 ∨ ∃ s ∈ (p0 :: rest).take 8, pyFloat s = none) :
    load_cpt (pre ++ line :: post) = .error .valueError := by
  have hp8 : parse8 (p0 :: rest) = .error .valueError := by
    rcases hbad with h | ⟨s, hs, hnone⟩
    · exact parse8_error_short _ h
    · exact parse8_error_bad_token _ s hs hnone
  have hline : processLine st line = .error .valueError :=
    processLine_error_of_parse8 st line p0 rest hc hsplit hsent hp8
  have hcol : collect (pre ++ line :: post) = .error .valueError := by
    unfold collect at hpre ⊢
    rw [collectFrom_append_ok initState st pre (line :: post) hpre]
    simp only [collectFrom]
    rw [hline]
  exact load_cpt_error_of_collect _ _ hcol

/-- Closed instance of the amended C6 theorem: the one-line file whose
single line `abc` is non-numeric (and shorter than eight fields). -/
theorem c6_short_or_non_numeric_row_fails_witness :
    (collect [] = .ok initState ∧ startsWithHash "abc" = false ∧
      pySplit "abc" = ["abc"] ∧ isSentinel "abc" = false ∧ pyFloat "abc" = none) ∧
    load_cpt ([] ++ "abc" :: []) = .error .valueError :=
  ⟨⟨by decide, by decide, by decide, by decide, by decide⟩,
   c6_short_or_non_numeric_row_fails [] "abc" [] initState "abc" []
     (by decide) (by decide) (by decide) (by decide)
     (Or.inr ⟨"abc", by decide, by decide⟩)⟩

/-! ### C10 (amended theorem) -/

/-- **C10 (amended)**: a blank or whitespace-only line — one whose token
list is empty — reached with every earlier line processed without error
makes the parse fail with the uncaught `IndexError` from `parts[0]`;
such lines are neither skipped nor treated as data rows.  (If an earlier
line already fails, that earlier error is raised instead — see the
counterexample.) -/
theorem c10_blank_line_raises_index_error (pre : List String) (line : String)
    (post : List String) (st : LoadState)
    (hpre : collect pre = .ok st)
    (hc : startsWithHash line = false)
    (hsplit : pySplit line = []) :
    load_cpt (pre ++ line :: post) = .error .indexError := by
  have hline := processLine_blank_index_error st line hc hsplit
  have hcol : collect (pre ++ line :: post) = .error .indexError := by
    unfold collect at hpre ⊢
    rw [collectFrom_append_ok initState st pre (line :: post) hpre]
    simp only [collectFrom]
    rw [hline]
  exact load_cpt_error_of_collect _ _ hcol

/-- Closed instance of the amended C10 theorem: a valid data row followed
by a whitespace-only line. -/
theorem c10_blank_line_raises_index_error_witness :
    (collect ["0 0 0 0 50 255 255 255"] =
        .ok ⟨false, [0, 50], [0, 255], [0, 255], [0, 255]⟩ ∧
      startsWithHash " " = false ∧ pySplit " " = []) ∧
    load_cpt (["0 0 0 0 50 255 255 255"] ++ " " :: []) = .error .indexError :=
  ⟨⟨by with_unfolding_all decide, by decide, by decide⟩,
   c10_blank_line_raises_index_error ["0 0 0 0 50 255 255 255"] " " []
     ⟨false, [0, 50], [0, 255], [0, 255], [0, 255]⟩
     (by with_unfolding_all decide) (by decide) (by decide)⟩

/-! ### C8 (amended theorem) -/

/-- **C8 (amended)**: a comment line containing `HSV` anywhere in the file
sets the color model to HSV for the *entire* palette: after a successful
loop the flag is set, and under it every channel accumulator — including
points parsed before the directive — is passed through unchanged rather
than divided by 255. -/
theorem c8_hsv_directive_governs_whole_file (lines : List String)
    (st : LoadState) (l : String)
    (hl : l ∈ lines) (hc : startsWithHash l = true) (hh : containsHSV l = true)
    (hcol : collect lines = .ok st) :
    st.hsv = true ∧ scaleChannel st.hsv st.r = st.r ∧
      scaleChannel st.hsv st.g = st.g ∧ scaleChannel st.hsv st.b = st.b := by
  obtain ⟨pre, post, rfl⟩ := List.append_of_mem hl
  unfold collect at hcol
  obtain ⟨mid, hmid, hrest⟩ := collectFrom_ok_split initState st pre (l :: post) hcol
  simp only [collectFrom] at hrest
  rw [processLine_comment_sets_hsv mid l hc hh] at hrest
  have hhsv : st.hsv = true := collectFrom_hsv_mono { mid with hsv := true } st post hrest rfl
  exact ⟨hhsv, by simp [scaleChannel, hhsv], by simp [scaleChannel, hhsv],
         by simp [scaleChannel, hhsv]⟩

/-- Closed instance of the amended C8 theorem: a data row followed by the
`# HSV` directive; the resulting state keeps the raw channel value 255. -/
theorem c8_hsv_directive_governs_whole_file_witness :
    ("# HSV" ∈ ["0 255 0 0 100 255 0 0", "# HSV"] ∧
      startsWithHash "# HSV" = true ∧ containsHSV "# HSV" = true ∧
      collect ["0 255 0 0 100 255 0 0", "# HSV"] =
        .ok ⟨true, [0, 100], [255, 255], [0, 0], [0, 0]⟩) ∧
    (true = true ∧ scaleChannel true [255, 255] = [255, 255] ∧
      scaleChannel true [0, 0] = [0, 0] ∧ scaleChannel true [0, 0] = [0, 0]) :=
  ⟨⟨by decide, by decide, by decide, by with_unfolding_all decide⟩,
   c8_hsv_directive_governs_whole_file ["0 255 0 0 100 255 0 0", "# HSV"]
     ⟨true, [0, 100], [255, 255], [0, 0], [0, 0]⟩ "# HSV"
     (by decide) (by decide) (by decide) (by with_unfolding_all decide)⟩

/-! ### C2 (amended theorem) -/

/-- **C2 (amended)**: for every palette file accepted by the parser whose
collected raw positions are non-decreasing *in file order* and not all
equal, the output normalized position sequence is non-decreasing, starts
at 0 and ends at 1.  (Without the order hypothesis the output need not be
sorted nor start at 0 — the parser never sorts, see the counterexample;
without `min < max` the source produces NaN positions, see C3.) -/
theorem c2_sorted_file_positions (lines : List String) (st : LoadState)
    (d : ColorDict) (h m : ℚ) (t : List ℚ)
    (hcol : collect lines = .ok st)
    (hx : st.x = h :: t)
    (hsorted : List.Pairwise (· ≤ ·) (h :: t))
    (hlast : (h :: t).getLast? = some m)
    (hlt : h < m)
    (hload : load_cpt lines = .ok d) :
    List.Pairwise (· ≤ ·) (d.red.map Prod.fst) ∧
    (d.red.map Prod.fst).head? = some 0 ∧
    (d.red.map Prod.fst).getLast? = some 1 := by
  obtain ⟨xn, hn, hd⟩ := load_cpt_ok_elim lines st d hcol hload
  rw [hx, normalizePositions_cons] at hn
  injection hn with hn
  have hall : ∀ a ∈ t, h ≤ a := (List.pairwise_cons.mp hsorted).1
  have hmin : t.foldl min h = h := foldl_min_eq_head h t hall
  have hmax : t.foldl max h = m := by
    have h2 := getLast?_eq_foldl_max h t hsorted
    rw [hlast] at h2
    injection h2 with h2
    exact h2.symm
  rw [hmin, hmax] at hn
  subst hn
  have hbal := collect_balanced lines st hcol
  have hlenr : (scaleChannel st.hsv st.r).length =
      ((h :: t).map fun v => (v - h) / (m - h)).length := by
    rw [scaleChannel_length, hbal.1, hx, List.length_map]
  have hpos : d.red.map Prod.fst = (h :: t).map fun v => (v - h) / (m - h) := by
    rw [hd]
    exact mkChannel_map_fst _ _ hlenr
  rw [hpos]
  have hdpos : (0 : ℚ) < m - h := sub_pos.mpr hlt
  refine ⟨?_, ?_, ?_⟩
  · refine List.Pairwise.map _ (fun a b hab => ?_) hsorted
    exact (div_le_div_iff_of_pos_right hdpos).mpr (sub_le_sub_right hab h)
  · simp only [List.map_cons, List.head?_cons, sub_self, zero_div]
  · rw [getLast?_map_cons, hlast]
    simp only [Option.map_some']
    rw [div_self (ne_of_gt hdpos)]

/-- Closed instance of the amended C2 theorem, on the sorted two-segment
file of C1. -/
theorem c2_sorted_file_positions_witness :
    List.Pairwise (· ≤ ·)
      (([((0:ℚ), (0:ℚ), (0:ℚ)), (1/2, 1, 1), (1/2, 1, 1), (1, 0, 0)]).map Prod.fst) ∧
    (([((0:ℚ), (0:ℚ), (0:ℚ)), (1/2, 1, 1), (1/2, 1, 1), (1, 0, 0)]).map Prod.fst).head?
        = some 0 ∧
    (([((0:ℚ), (0:ℚ), (0:ℚ)), (1/2, 1, 1), (1/2, 1, 1), (1, 0, 0)]).map Prod.fst).getLast?
        = some 1 :=
  c2_sorted_file_positions
    ["0 0 0 0 50 255 255 255", "50 255 255 255 100 0 0 0"]
    ⟨false, [0, 50, 50, 100], [0, 255, 255, 0], [0, 255, 255, 0], [0, 255, 255, 0]⟩
    ⟨[(0, 0, 0), (1/2, 1, 1), (1/2, 1, 1), (1, 0, 0)],
     [(0, 0, 0), (1/2, 1, 1), (1/2, 1, 1), (1, 0, 0)],
     [(0, 0, 0), (1/2, 1, 1), (1/2, 1, 1), (1, 0, 0)]⟩
    0 100 [50, 50, 100]
    (by with_unfolding_all decide) rfl (by with_unfolding_all decide)
    (by with_unfolding_all decide) (by with_unfolding_all decide)
    (by with_unfolding_all decide)

/-! ### C7 (amended theorem) -/

/-- **C7 (amended)**: for every palette file accepted by the parser under
the RGB model *whose raw channel values all lie in `[0, 255]`*, every
emitted channel value lies in `[0, 1]` (and each entry carries the value
twice).  Raw values outside `[0, 255]` are accepted and land outside
`[0, 1]` — see the counterexample. -/
theorem c7_bounded_rgb_channels (lines : List String) (st : LoadState)
    (d : ColorDict)
    (hcol : collect lines = .ok st)
    (hhsv : st.hsv = false)
    (hrange : ∀ v ∈ st.r ++ st.g ++ st.b, 0 ≤ v ∧ v ≤ 255)
    (hload : load_cpt lines = .ok d) :
    ∀ p ∈ d.red ++ d.green ++ d.blue,
      (0 ≤ p.2.1 ∧ p.2.1 ≤ 1) ∧ p.2.2 = p.2.1 := by
  obtain ⟨xn, hn, hd⟩ := load_cpt_ok_elim lines st d hcol hload
  have main : ∀ c : List ℚ, (∀ v ∈ c, 0 ≤ v ∧ v ≤ 255) →
      ∀ q ∈ mkChannel xn (scaleChannel st.hsv c),
        (0 ≤ q.2.1 ∧ q.2.1 ≤ 1) ∧ q.2.2 = q.2.1 := by
    intro c hc q hq
    obtain ⟨cv, hcv, h1, h2⟩ := mem_mkChannel _ _ _ hq
    rw [hhsv] at hcv
    simp only [scaleChannel, Bool.false_eq_true, if_false] at hcv
    obtain ⟨v, hv, hveq⟩ := List.mem_map.mp hcv
    obtain ⟨h0, h255⟩ := hc v hv
    refine ⟨⟨?_, ?_⟩, ?_⟩
    · rw [h1, ← hveq]
      exact div_nonneg h0 (by norm_num)
    · rw [h1, ← hveq]
      rw [div_le_one (by norm_num : (0 : ℚ) < 255)]
      exact h255
    · rw [h1, h2]
  subst hd
  intro p hp
  rcases List.mem_append.mp hp with hp1 | hpb
  · rcases List.mem_append.mp hp1 with hpr | hpg
    · exact main st.r (fun v hv => hrange v (by simp [hv])) p hpr
    · exact main st.g (fun v hv => hrange v (by simp [hv])) p hpg
  · exact main st.b (fun v hv => hrange v (by simp [hv])) p hpb

/-- Closed instance of the amended C7 theorem: the entry `(1, 1, 1)` of
the parsed one-row file `0 0 0 0 50 255 255 255`. -/
theorem c7_bounded_rgb_channels_witness :
    (0 ≤ (1 : ℚ) ∧ (1 : ℚ) ≤ 1) ∧ (1 : ℚ) = 1 :=
  c7_bounded_rgb_channels ["0 0 0 0 50 255 255 255"]
    ⟨false, [0, 50], [0, 255], [0, 255], [0, 255]⟩
    ⟨[(0, 0, 0), (1, 1, 1)], [(0, 0, 0), (1, 1, 1)], [(0, 0, 0), (1, 1, 1)]⟩
    (by with_unfolding_all decide) rfl
    (by with_unfolding_all decide)
    (by with_unfolding_all decide)
    ((1 : ℚ), (1 : ℚ), (1 : ℚ))
    (by with_unfolding_all decide)

end GenMap
